import Mathlib

/-!
Verification development for the Postgres-backed vector store
(`src/langchain/src/vectorstores/pg.ts`) and its scalar type predicates
(`src/unnamed/part_005`, the `util/types` module).

The TypeScript source is shallowly embedded: JavaScript scalar values are
modelled by the mutual inductive `JVal`/`JArr`/`JObj` (numbers as exact
rationals; binary floating-point rounding and the non-finite values
NaN/Infinity are outside the model), fallible code returns `Except String`,
and database effects are modelled as explicit event traces.  Driver
behaviour (pg-promise `$N` formatting, `:raw` interpolation, identifier
escaping) and the native Postgres vector operators are external to the
repository and are modelled where the specification describes them.
-/

mutual
/-- JVal models a runtime JavaScript value as it can reach the filter
compiler: a (finite) number, a string, a boolean, `null`, an array, or a
plain object given by its ordered entry list. -/
inductive JVal where
  | num (q : ℚ)
  | str (s : String)
  | jbool (b : Bool)
  | jnull
  | jarr (elems : JArr)
  | jobj (entries : JObj)
/-- JArr is the element list of a JavaScript array value. -/
inductive JArr where
  | nil
  | cons (hd : JVal) (tl : JArr)
/-- JObj is the ordered entry list of a plain JavaScript object. -/
inductive JObj where
  | nil
  | cons (k : String) (v : JVal) (tl : JObj)
end

/-- JObj.toList converts object entries to an ordinary list. -/
def JObj.toList : JObj → List (String × JVal)
  | .nil => []
  | .cons k v tl => (k, v) :: tl.toList

/-- JObj.ofList builds object entries from an ordinary list. -/
def JObj.ofList : List (String × JVal) → JObj
  | [] => .nil
  | (k, v) :: tl => .cons k v (JObj.ofList tl)

/-- JArr.ofList builds array elements from an ordinary list. -/
def JArr.ofList : List JVal → JArr
  | [] => .nil
  | x :: xs => .cons x (JArr.ofList xs)

/-- jsFalsy models JavaScript truthiness: `0`, `""`, `false` and `null` are
falsy; every object and array (even empty ones) is truthy. -/
def jsFalsy : JVal → Bool
  | .num q => q == 0
  | .str s => s == ""
  | .jbool b => !b
  | .jnull => true
  | .jarr _ => false
  | .jobj _ => false

/-- digitChar maps a digit value to its ASCII character. -/
def digitChar (d : ℕ) : Char := Char.ofNat (48 + d)

/-- charDigitVal maps an ASCII digit character back to its value. -/
def charDigitVal (c : Char) : ℕ := c.toNat - 48

/-- natToDigitsRev computes the little-endian base-10 digits of `n`
(using `fuel` to make the recursion structural); `[]` for `n = 0`. -/
def natToDigitsRev : ℕ → ℕ → List ℕ
  | 0, _ => []
  | fuel + 1, n => if n = 0 then [] else n % 10 :: natToDigitsRev fuel (n / 10)

/-- natToString renders a natural number in decimal, as JavaScript
`Number.prototype.toString` does for non-negative integers. -/
def natToString (n : ℕ) : String :=
  if n = 0 then "0" else String.mk (((natToDigitsRev n n).reverse).map digitChar)

/-- intToString renders an integer in decimal with a leading `-` when
negative, matching JavaScript `toString` on integral numbers. -/
def intToString (i : ℤ) : String :=
  if i < 0 then "-" ++ natToString i.natAbs else natToString i.natAbs

/-- digitsVal folds a big-endian digit list into the natural number it
denotes. -/
def digitsVal (ds : List ℕ) : ℕ := ds.foldl (fun a d => a * 10 + d) 0

/-- jsWhitespace models the whitespace characters skipped by the JavaScript
numeric parsing functions. -/
def jsWhitespace (c : Char) : Bool := c = ' ' || c = '\t' || c = '\n' || c = '\r'

/-- readSign consumes an optional leading sign, returning whether the value
is negated and the remaining characters. -/
def readSign : List Char → Bool × List Char
  | [] => (false, [])
  | c :: cs => if c = '-' then (true, cs) else if c = '+' then (false, cs) else (false, c :: cs)

/-- jsParseInt models JavaScript `parseInt(s, 10)`: skip whitespace, read an
optional sign and then a maximal run of decimal digits; `none` models NaN. -/
def jsParseInt (s : String) : Option ℤ :=
  let cs := s.toList.dropWhile jsWhitespace
  let sc := readSign cs
  let ds := sc.2.takeWhile Char.isDigit
  if ds.isEmpty then none
  else
    let n : ℕ := digitsVal (ds.map charDigitVal)
    some (if sc.1 then -(n : ℤ) else (n : ℤ))

/-- jsParseFloat models JavaScript `parseFloat`: skip whitespace, read an
optional sign, an integer part, an optional fractional part and an optional
exponent, taking the longest valid prefix; `none` models NaN.  (The literal
`Infinity`, which is not representable here, is outside the model.) -/
def jsParseFloat (s : String) : Option ℚ :=
  let cs := s.toList.dropWhile jsWhitespace
  let sc := readSign cs
  let intDs := sc.2.takeWhile Char.isDigit
  let rest := sc.2.dropWhile Char.isDigit
  let fracPair : List Char × List Char :=
    match rest with
    | '.' :: cs2 => (cs2.takeWhile Char.isDigit, cs2.dropWhile Char.isDigit)
    | _ => ([], rest)
  if intDs.isEmpty && fracPair.1.isEmpty then none
  else
    let mant : ℚ := (digitsVal (intDs.map charDigitVal) : ℚ) +
      (digitsVal (fracPair.1.map charDigitVal) : ℚ) / (10 : ℚ) ^ fracPair.1.length
    let expVal : ℤ :=
      match fracPair.2 with
      | e :: cs3 =>
        if e = 'e' || e = 'E' then
          let esc := readSign cs3
          let eDs := esc.2.takeWhile Char.isDigit
          if eDs.isEmpty then 0
          else if esc.1 then -(digitsVal (eDs.map charDigitVal) : ℤ)
          else (digitsVal (eDs.map charDigitVal) : ℤ)
        else 0
      | [] => 0
    let v : ℚ := mant * (10 : ℚ) ^ expVal
    some (if sc.1 then -v else v)

/-- factorCount counts the multiplicity of `p` in `n` (fuel-structured). -/
def factorCount (p : ℕ) : ℕ → ℕ → ℕ
  | 0, _ => 0
  | fuel + 1, n => if n % p = 0 ∧ n ≠ 0 ∧ 1 < p then 1 + factorCount p fuel (n / p) else 0

/-- fracDigitsString renders the fractional digits `fr` of a decimal
expansion with `k` places: left-padded with zeros to width `k`, trailing
zeros removed, as JavaScript `toString` prints them. -/
def fracDigitsString (fr k : ℕ) : String :=
  let ds := (natToDigitsRev fr fr).reverse
  let padded := List.replicate (k - ds.length) 0 ++ ds
  String.mk (((padded.reverse.dropWhile (· = 0)).reverse).map digitChar)

/-- numToString models JavaScript `Number.prototype.toString` on the
rationals that arise in this development: integers print in plain decimal
and decimal fractions print with their shortest decimal expansion.  A
rational whose reduced denominator has a prime factor other than 2 or 5 is
not the value of any JavaScript number and is rendered as a fraction marker
(never reachable from `jsParseInt`/`jsParseFloat` results). -/
def numToString (q : ℚ) : String :=
  if q.den = 1 then intToString q.num
  else
    let a := factorCount 2 q.den q.den
    let b := factorCount 5 q.den q.den
    if q.den = 2 ^ a * 5 ^ b then
      let k := max a b
      let scaled := q.num.natAbs * (10 ^ k / q.den)
      (if q.num < 0 then "-" else "") ++ natToString (scaled / 10 ^ k) ++ "." ++
        fracDigitsString (scaled % 10 ^ k) k
    else intToString q.num ++ "/" ++ natToString q.den

/-- isInt embeds `isInt` from `util/types`: a number with no fractional
part, or a string whose `parseInt` value round-trips to the same string. -/
def isInt : JVal → Bool
  | .num q => q.den == 1
  | .str s =>
    match jsParseInt s with
    | none => false
    | some n => intToString n == s
  | _ => false

/-- isFloat embeds `isFloat` from `util/types`: a number with a fractional
part, or a string whose `parseFloat` value is non-integral and round-trips
to the same string. -/
def isFloat : JVal → Bool
  | .num q => q.den != 1
  | .str s =>
    match jsParseFloat s with
    | none => false
    | some q => q.den != 1 && numToString q == s
  | _ => false

/-- isString embeds `isString` from `util/types`: a string that does not
round-trip through `parseFloat`. -/
def isString : JVal → Bool
  | .str s =>
    match jsParseFloat s with
    | none => true
    | some q => numToString q != s
  | _ => false

/-- escapeSingleQuotes doubles every single-quote character, the escaping
pg-promise applies inside text literals. -/
def escapeSingleQuotes (s : String) : String :=
  String.mk (s.toList.foldr (fun c acc => if c = '\'' then '\'' :: '\'' :: acc else c :: acc) [])

/-- sqlStringLiteral models how pg-promise renders a string bound to a plain
`$N` placeholder: quoted, with embedded quotes doubled. -/
def sqlStringLiteral (s : String) : String := "'" ++ escapeSingleQuotes s ++ "'"

/-- fmtLit models pg-promise formatting of a value bound to a plain `$N`
placeholder: strings are quoted literals, numbers print in decimal,
booleans and null print as keywords.  (Composite values never reach a
placeholder in the embedded code paths.) -/
def fmtLit : JVal → String
  | .str s => sqlStringLiteral s
  | .num q => numToString q
  | .jbool b => if b then "true" else "false"
  | .jnull => "null"
  | .jarr _ => "<array>"
  | .jobj _ => "<object>"

/-- Modelled from the spec: the driver's identifier escaping (pg-promise
SQL Names, the "format identifier" equivalent of spec section 4.D) wraps a
name in double quotes and doubles embedded double quotes.  The original
code does not call it; it is defined here to compare the compiled SQL
against the escaping the specification requires. -/
def pgIdentEscape (s : String) : String :=
  "\"" ++ String.mk (s.toList.foldr (fun c acc => if c = '"' then '"' :: '"' :: acc else c :: acc) []) ++ "\""

/-- strContainsSub decides whether `needle` occurs as a contiguous
substring of `hay`. -/
def strContainsSub (hay needle : String) : Bool :=
  hay.toList.tails.any (fun t => needle.toList.isPrefixOf t)

/-- comparisonMapLookup embeds the `ComparisonMap` table of `pg.ts`. -/
def comparisonMapLookup (op : String) : Option String :=
  List.lookup op [("$eq", "="), ("$lt", "<"), ("$lte", "<="), ("$gt", ">"),
    ("$gte", ">="), ("$not", "<>"), ("$textSearch", "@@")]

/-- FMode is the filter compilation mode argument of `buildSqlFilterStr`
("metadata" or "column"). -/
inductive FMode where
  | metadata
  | column
  deriving DecidableEq

/-- jsLookupOpt finds the value of the first entry with the given key in an
object entry list. -/
def jsLookupOpt (k : String) (e : List (String × JVal)) : Option JVal :=
  (e.find? (fun p => p.1 == k)).map (fun p => p.2)

/-- jsHasKey models the JavaScript `in` operator on a plain object. -/
def jsHasKey (k : String) (e : List (String × JVal)) : Bool :=
  e.any (fun p => p.1 == k)

/-- myValueOf embeds the `myValue` extraction of `buildClause`: an object
carrying a `query` field yields that field, anything else is unchanged. -/
def myValueOf (v : JVal) : JVal :=
  match v with
  | .jobj e => if jsHasKey "query" e.toList then (jsLookupOpt "query" e.toList).getD .jnull else v
  | _ => v

/-- TextSearchValue mirrors the `TextSearchValue` type of `pg.ts`. -/
structure TextSearchValue where
  query : String
  type : Option String := none
  config : Option String := none

/-- toTextSearchValue reads a runtime value as a `TextSearchValue`; values
whose `query` field is not a string are outside the typed DSL and are
rejected (the original code would fail inside the driver there). -/
def toTextSearchValue (v : JVal) : Option TextSearchValue :=
  match v with
  | .jobj e =>
    match jsLookupOpt "query" e.toList with
    | some (.str q) =>
      let ty := match jsLookupOpt "type" e.toList with | some (.str t) => some t | _ => none
      let cf := match jsLookupOpt "config" e.toList with | some (.str c) => some c | _ => none
      some { query := q, type := ty, config := cf }
    | _ => none
  | _ => none

/-- buildTextSearchStatement embeds `PGVectorStore.buildTextSearchStatement`:
the language defaults to `simple` when `config` is absent, the query
operator defaults to `to_tsquery` when `type` is absent (or, being falsy,
the empty string), and a present truthy `type` outside
plain/phrase/websearch raises `Invalid text search type`. -/
def buildTextSearchStatement (param : TextSearchValue) (column : String) :
    Except String String := do
  let lang := param.config.getD "simple"
  let queryOp ←
    match param.type with
    | none => pure "to_tsquery"
    | some t =>
      if t = "" then pure "to_tsquery"
      else if t = "plain" then pure "plainto_tsquery"
      else if t = "phrase" then pure "phraseto_tsquery"
      else if t = "websearch" then pure "websearch_to_tsquery"
      else Except.error "Invalid text search type"
  pure ("to_tsvector(" ++ sqlStringLiteral lang ++ ", " ++ column ++ ") @@ " ++
    queryOp ++ "(" ++ sqlStringLiteral lang ++ ", " ++ sqlStringLiteral param.query ++ ")")

/-- buildClause embeds the `buildClause` closure of `buildSqlFilterStr`:
classify the (extracted) value with `isString`/`isInt`/`isFloat` to choose
the cast and JSON arrow, resolve the column expression by mode and
page-content column, then emit either a text-search statement or a
formatted comparison whose left side is interpolated raw (`$1:raw`) and
whose right side is a driver-escaped literal (`$2`). -/
def buildClause (mode : FMode) (pageContentColumn : String) (key : String)
    (op : String) (value : JVal) : Except String String :=
  let compRaw := (comparisonMapLookup op).getD "undefined"
  let myValue := myValueOf value
  let cls : Option (String × String) :=
    if isString myValue then some ("::text", "->>")
    else if isInt myValue then some ("::int", "->")
    else if isFloat myValue then some ("::float", "->")
    else none
  match cls with
  | none => Except.error "Data type not supported"
  | some (typeCast, arrow) =>
    let ck : String × String :=
      if key = pageContentColumn then (pageContentColumn, typeCast)
      else if mode = .column then (key, "")
      else ("metadata" ++ arrow ++ "'" ++ key ++ "'", typeCast)
    if op = "$textSearch" then
      match toTextSearchValue value with
      | some ts => buildTextSearchStatement ts ck.1
      | none => Except.error "TypeError: invalid text search value"
    else
      Except.ok ("(" ++ ck.1 ++ ")" ++ ck.2 ++ " " ++ compRaw ++ " " ++ fmtLit myValue)

/-- opsPairsParts embeds the operator-object branch of `recursiveBuild`:
each `{op: value}` pair with a falsy value maps to `null`, the rest compile
through `buildClause`. -/
def opsPairsParts (mode : FMode) (pageContentColumn : String) (key : String) :
    List (String × JVal) → Except String (List (Option String))
  | [] => pure []
  | p :: ps => do
    let x ← if jsFalsy p.2 then pure none
      else (buildClause mode pageContentColumn key p.1 p.2).map some
    let rest ← opsPairsParts mode pageContentColumn key ps
    pure (x :: rest)

/-- buildOpsObject joins the surviving clause fragments of an operator
object with `AND` (the `filter(Boolean).join(" AND ")` step). -/
def buildOpsObject (mode : FMode) (pageContentColumn : String) (key : String)
    (pairs : List (String × JVal)) : Except String String := do
  let parts ← opsPairsParts mode pageContentColumn key pairs
  pure (String.intercalate " AND " (parts.filterMap id))

/-- stringCharEntries models `Object.entries` on a string: index keys and
one-character string values. -/
def stringCharEntries (s : String) : List (String × JVal) :=
  ((List.range s.toList.length).zip s.toList).map
    (fun p => (natToString p.1, .str (String.mk [p.2])))

/-- joinNonEmptyParts joins entry fragments with `AND` after the
`filter(Boolean)` step that drops empty strings. -/
def joinNonEmptyParts (parts : List String) : String :=
  String.intercalate " AND " (parts.filter (fun s => s != ""))

mutual
/-- recursiveBuildVal embeds `recursiveBuild` of `buildSqlFilterStr`,
dispatching on the `Object.entries` of its argument: object entries
compile entry-wise; array and string inputs contribute their indexed
entries (index keys are never `$and`/`$or`, so string entries reduce to
implicit `$eq` clauses); numbers and booleans have no entries; `null`
raises `Object.entries`'s `TypeError`. -/
def recursiveBuildVal : FMode → String → JVal → Except String String
  | mode, pc, .jobj entries => do
    let parts ← recursiveBuildEntries mode pc entries
    pure (joinNonEmptyParts parts)
  | mode, pc, .jarr l => do
    let parts ← recursiveBuildIndexed mode pc 0 l
    pure (joinNonEmptyParts parts)
  | mode, pc, .str s => do
    let parts ← (stringCharEntries s).mapM (fun p => buildClause mode pc p.1 "$eq" p.2)
    pure (joinNonEmptyParts parts)
  | _, _, .num _ => pure (joinNonEmptyParts [])
  | _, _, .jbool _ => pure (joinNonEmptyParts [])
  | _, _, .jnull => Except.error "TypeError: Cannot convert undefined or null to object"

/-- recursiveBuildEntries compiles each object entry in order through
`recursiveBuildEntry`. -/
def recursiveBuildEntries : FMode → String → JObj → Except String (List String)
  | _, _, .nil => pure []
  | mode, pc, .cons k v tl => do
    let part ← recursiveBuildEntry mode pc k v
    let rest ← recursiveBuildEntries mode pc tl
    pure (part :: rest)

/-- recursiveBuildIndexed compiles the indexed entries of an array input;
index keys are decimal strings, so the logical branch never fires and each
element compiles like an ordinary entry. -/
def recursiveBuildIndexed : FMode → String → ℕ → JArr → Except String (List String)
  | _, _, _, .nil => pure []
  | mode, pc, i, .cons hd tl => do
    let part ← recursiveBuildEntry mode pc (natToString i) hd
    let rest ← recursiveBuildIndexed mode pc (i + 1) tl
    pure (part :: rest)

/-- recursiveBuildEntry embeds the per-entry dispatch of `recursiveBuild`:
a `$and`/`$or` key recurses on its child array and parenthesizes the parts
joined with the mapped separator (a non-array child raises the `.map`
`TypeError`); an object value compiles as an operator object; a `null`
value raises `Object.entries`'s `TypeError`; anything else compiles as an
implicit `$eq` clause. -/
def recursiveBuildEntry : FMode → String → String → JVal → Except String String
  | mode, pc, key, ops =>
    if key = "$and" ∨ key = "$or" then
      match ops with
      | .jarr children => do
        let logicalParts ← recursiveBuildChildren mode pc children
        pure ("(" ++ String.intercalate
          (" " ++ (if key = "$and" then "AND" else "OR") ++ " ") logicalParts ++ ")")
      | _ => Except.error "TypeError: ops.map is not a function"
    else
      match ops with
      | .jobj pairs => buildOpsObject mode pc key pairs.toList
      | .jnull => Except.error "TypeError: Cannot convert undefined or null to object"
      | _ => buildClause mode pc key "$eq" ops

/-- recursiveBuildChildren maps `recursiveBuildVal` over the children of a
`$and`/`$or` entry, in order. -/
def recursiveBuildChildren : FMode → String → JArr → Except String (List String)
  | _, _, .nil => pure []
  | mode, pc, .cons hd tl => do
    let s ← recursiveBuildVal mode pc hd
    let rest ← recursiveBuildChildren mode pc tl
    pure (s :: rest)
end

/-- buildSqlFilterStr embeds `PGVectorStore.buildSqlFilterStr`: `null` in,
`null` out; otherwise prefix the compiled fragment with `WHERE `, returning
`null` when the fragment is empty. -/
def buildSqlFilterStr (filter : Option JVal) (mode : FMode)
    (pageContentColumn : String) : Except String (Option String) :=
  match filter with
  | none => Except.ok none
  | some f => do
    let s ← recursiveBuildVal mode pageContentColumn f
    let strFilter := "WHERE " ++ s
    if strFilter = "WHERE " then pure none else pure (some strFilter)

instance {ε α : Type} [DecidableEq ε] [DecidableEq α] : DecidableEq (Except ε α) := fun a b =>
  match a, b with
  | .ok x, .ok y =>
    if h : x = y then .isTrue (by rw [h]) else .isFalse (fun hc => by cases hc; exact h rfl)
  | .error x, .error y =>
    if h : x = y then .isTrue (by rw [h]) else .isFalse (fun hc => by cases hc; exact h rfl)
  | .ok _, .error _ => .isFalse (fun hc => by cases hc)
  | .error _, .ok _ => .isFalse (fun hc => by cases hc)

/-- Metric is the similarity metric type of `pg.ts`. -/
inductive Metric where
  | cosine
  | l2
  | manhattan
  | inner_product
  deriving DecidableEq

/-- ExtKind names the two concrete Postgres embedding extensions. -/
inductive ExtKind where
  | pgvector
  | pgembedding
  deriving DecidableEq

/-- joinCommaVec renders `vector.join(",")` for a numeric vector. -/
def joinCommaVec (v : List ℚ) : String := String.intercalate "," (v.map numToString)

/-- buildSelectStatement embeds the select-list construction shared by both
`buildFetchRowsStatement` implementations: under a join, qualify each
column as `table.col AS col`; an empty return list selects `*`. -/
def buildSelectStatement (tableName : String) (returns : List String)
    (disambiguate : Bool) : String :=
  if disambiguate then
    if returns.length > 0 then
      String.intercalate ", " (returns.map (fun col => tableName ++ "." ++ col ++ " AS " ++ col))
    else "*"
  else if returns.length > 0 then String.intercalate ", " returns else "*"

/-- PGVectorExt.buildFetchRowsStatement embeds the pgvector fetch statement:
the `_distance` expression is `1 - (embedding <=> $1::vector)` for cosine,
`embedding <-> $1::vector` for l2 and `(embedding <#> $1::vector) * -1` for
inner product, with the vector bound as a quoted `[...]` literal. -/
def PGVectorExt.buildFetchRowsStatement (metric : Metric) (vector : List ℚ)
    (tableName : String) (returns : List String) (disambiguate : Bool) :
    Except String String := do
  let queryStr := sqlStringLiteral ("[" ++ joinCommaVec vector ++ "]")
  let embeddingStatement ←
    match metric with
    | .cosine => pure ("1 - (embedding <=> " ++ queryStr ++ "::vector)")
    | .l2 => pure ("embedding <-> " ++ queryStr ++ "::vector")
    | .inner_product => pure ("(embedding <#> " ++ queryStr ++ "::vector) * -1")
    | .manhattan => Except.error "Invalid metric"
  pure ("SELECT " ++ buildSelectStatement tableName returns disambiguate ++ ", " ++
    embeddingStatement ++ " AS \"_distance\" FROM " ++ tableName)

/-- PGEmbeddingExt.buildFetchRowsStatement embeds the pg_embedding fetch
statement: `embedding OP array[...]` with `<=>`, `<->` or `<~>` chosen by
the metric, the vector interpolated raw (`$1:raw`). -/
def PGEmbeddingExt.buildFetchRowsStatement (metric : Metric) (vector : List ℚ)
    (tableName : String) (returns : List String) (disambiguate : Bool) :
    Except String String := do
  let arrow ←
    match metric with
    | .cosine => pure "<=>"
    | .l2 => pure "<->"
    | .manhattan => pure "<~>"
    | .inner_product => Except.error "Invalid metric"
  pure ("SELECT " ++ buildSelectStatement tableName returns disambiguate ++ ", embedding " ++
    arrow ++ " array[" ++ joinCommaVec vector ++ "] AS \"_distance\" FROM " ++ tableName)

/-- Ev is one observable database effect: a statement executed on a handle,
or a transaction boundary.  Handle 0 is the pooled database instance;
handles above 0 are transaction handles. -/
inductive Ev where
  | exec (handle : ℕ) (sql : String)
  | txBegin (handle : ℕ)
  | txCommit (handle : ℕ)
  | txRollback (handle : ℕ)
  deriving DecidableEq

/-- PGQuery models the query closures passed to `runQuery`: a function of
the connection handle returning the effects it performs and its result. -/
def PGQuery (R : Type) := ℕ → List Ev × Except String R

/-- PGVectorExt.runQueryWrapper embeds the pgvector wrapper: it applies the
closure directly to the database handle. -/
def PGVectorExt.runQueryWrapper {R : Type} (dbInstance : ℕ) (query : PGQuery R) :
    List Ev × Except String R :=
  query dbInstance

/-- PGEmbeddingExt.runQueryWrapper embeds the pg_embedding wrapper: open a
transaction (a fresh handle), issue `SET LOCAL enable_seqscan = off;`, run
the closure on the transaction handle, and close the transaction (rolling
back when the closure fails, as `db.tx` does). -/
def PGEmbeddingExt.runQueryWrapper {R : Type} (dbInstance : ℕ) (query : PGQuery R) :
    List Ev × Except String R :=
  let t := dbInstance + 1
  let r := query t
  (Ev.txBegin t :: Ev.exec t "SET LOCAL enable_seqscan = off;" :: r.1 ++
    [match r.2 with
     | .ok _ => Ev.txCommit t
     | .error _ => Ev.txRollback t], r.2)

/-- extRunQueryWrapper dispatches `runQueryWrapper` by extension. -/
def extRunQueryWrapper (ext : ExtKind) {R : Type} (dbInstance : ℕ) (query : PGQuery R) :
    List Ev × Except String R :=
  match ext with
  | .pgvector => PGVectorExt.runQueryWrapper dbInstance query
  | .pgembedding => PGEmbeddingExt.runQueryWrapper dbInstance query

/-- PGVectorStore.runQuery embeds the store's query indirection: route the
closure through the extension's `runQueryWrapper` when `useHnswIndex` is
set, otherwise apply it directly to the database instance. -/
def PGVectorStore.runQuery (ext : ExtKind) (useHnswIndex : Bool) {R : Type}
    (query : PGQuery R) : List Ev × Except String R :=
  if useHnswIndex then extRunQueryWrapper ext 0 query else query 0

/-- Column mirrors the extra-column declaration type of `pg.ts`. -/
structure Column where
  name : String
  type : String
  returned : Bool
  notNull : Bool := false
  references : Option (Sum String (String × String)) := none

/-- StoreCfg collects the `PGVectorStore` construction state the embedded
operations read. -/
structure StoreCfg where
  ext : ExtKind
  metric : Metric
  dims : ℕ
  useHnswIndex : Bool
  tableName : String
  pageContentColumn : String
  extraColumns : List Column

/-- OnCondition mirrors the `OnCondition` type of `pg.ts`. -/
structure OnCondition where
  left : String
  right : String
  operator : Option String := none

/-- JoinStatement mirrors the `JoinStatement` type of `pg.ts`. -/
structure JoinStatement where
  op : String
  table : String
  «on» : List OnCondition

/-- PGVectorStore.buildJoinStatement embeds the join builder: validate the
join operator against the closed list, then emit
`<op> <table> ON <left> <operator|=> <right> [AND ...]` by template
concatenation (table and condition sides are not escaped). -/
def PGVectorStore.buildJoinStatement (st : JoinStatement) : Except String String :=
  if ["JOIN", "LEFT JOIN", "RIGHT JOIN", "FULL JOIN", "CROSS JOIN", "INNER JOIN"].contains st.op then
    Except.ok (st.op ++ " " ++ st.table ++ " ON " ++ String.intercalate " AND "
      (st.«on».map (fun c =>
        c.left ++ " " ++
          (match c.operator with
           | none => "="
           | some s => if s = "" then "=" else s) ++ " " ++ c.right)))
  else Except.error ("Invalid join statement: " ++ st.op)

/-- JoinSpec is the `JoinStatement | JoinStatement[]` union of the filter
argument. -/
inductive JoinSpec where
  | single (j : JoinStatement)
  | many (l : List JoinStatement)

/-- PGFilterWithJoin mirrors the `PGFilterWithJoin` filter argument. -/
structure PGFilterWithJoin where
  metadataFilter : Option JVal := none
  columnFilter : Option JVal := none
  join : Option JoinSpec := none

/-- selectedColumnsOf embeds the fetch select-list extension: caller
requested columns followed by the `returned` extra columns. -/
def selectedColumnsOf (cfg : StoreCfg) (returnedColumns : Option (List String)) : List String :=
  (returnedColumns.getD []) ++ (cfg.extraColumns.filter (fun c => c.returned)).map (fun c => c.name)

/-- extBuildFetchRowsStatement dispatches `buildFetchRowsStatement` by
extension. -/
def extBuildFetchRowsStatement (cfg : StoreCfg) (queryVec : List ℚ)
    (returns : List String) (disambiguate : Bool) : Except String String :=
  match cfg.ext with
  | .pgvector => PGVectorExt.buildFetchRowsStatement cfg.metric queryVec cfg.tableName returns disambiguate
  | .pgembedding => PGEmbeddingExt.buildFetchRowsStatement cfg.metric queryVec cfg.tableName returns disambiguate

/-- fetchRowsAssemble embeds the query-string assembly of `fetchRows` in a
given compilation mode: fetch statement, join fragments, optional filter
fragment and the `ORDER BY "_distance" LIMIT k` tail, joined by spaces
after dropping null/empty parts. -/
def fetchRowsAssemble (cfg : StoreCfg) (queryVec : List ℚ) (k : ℕ) (mode : FMode)
    (filt : Option JVal) (joins : List String) (disambiguate : Bool)
    (returnedColumns : Option (List String)) : Except String String := do
  let fetchStmt ← extBuildFetchRowsStatement cfg queryVec
    ("id" :: cfg.pageContentColumn :: "metadata" :: selectedColumnsOf cfg returnedColumns)
    disambiguate
  let filterStr ← buildSqlFilterStr filt mode cfg.pageContentColumn
  let orderStr := "ORDER BY \"_distance\" LIMIT " ++ natToString k ++ ";"
  pure (String.intercalate " "
    ((([some fetchStmt] ++ joins.map some ++ [filterStr, some orderStr]).filterMap id).filter
      (fun s => s != "")))

/-- PGVectorStore.fetchRows embeds the fetch pipeline up to the SQL string:
build the join fragments, reject a filter carrying both `metadataFilter`
and `columnFilter`, choose the compilation mode from whichever filter is
present, and assemble the query. -/
def PGVectorStore.fetchRows (cfg : StoreCfg) (queryVec : List ℚ) (k : ℕ)
    (filter : Option PGFilterWithJoin) (returnedColumns : Option (List String)) :
    Except String String := do
  let f := filter.getD {}
  let shouldDisambiguate := f.join.isSome
  let joinStatements ←
    match f.join with
    | some (.many l) => l.mapM PGVectorStore.buildJoinStatement
    | some (.single j) => (PGVectorStore.buildJoinStatement j).map (fun s => [s])
    | none => pure []
  if f.metadataFilter.isSome ∧ f.columnFilter.isSome then
    Except.error "Cannot have both metadataFilter and columnFilter"
  else
    let mode : FMode := if f.columnFilter.isSome then .column else .metadata
    fetchRowsAssemble cfg queryVec k mode (f.metadataFilter <|> f.columnFilter)
      joinStatements shouldDisambiguate returnedColumns

/-- PGVectorStore.fetchRowsExec pairs the assembled query with its
execution through `runQuery`; when assembly fails no statement is issued. -/
def PGVectorStore.fetchRowsExec (cfg : StoreCfg) (queryVec : List ℚ) (k : ℕ)
    (filter : Option PGFilterWithJoin) (returnedColumns : Option (List String)) :
    List Ev × Except String Unit :=
  match PGVectorStore.fetchRows cfg queryVec k filter returnedColumns with
  | .error e => ([], .error e)
  | .ok sql =>
    ((PGVectorStore.runQuery cfg.ext cfg.useHnswIndex
      (fun h => ([Ev.exec h sql], Except.ok ()))).1, .ok ())

/-- buildEnsureExtensionStatement embeds the per-extension
`CREATE EXTENSION` DDL. -/
def buildEnsureExtensionStatement : ExtKind → String
  | .pgvector => "CREATE EXTENSION IF NOT EXISTS vector;"
  | .pgembedding => "CREATE EXTENSION IF NOT EXISTS embedding;"

/-- extBuildDataType embeds `buildDataType` of the two extensions. -/
def extBuildDataType (ext : ExtKind) (dims : ℕ) : String :=
  match ext with
  | .pgvector => "vector(" ++ natToString dims ++ ")"
  | .pgembedding => "REAL[]"

/-- extraColumnDDL embeds the extra-column DDL fragment of
`ensureTableInDatabase`. -/
def extraColumnDDL (c : Column) : String :=
  c.name ++ " " ++ c.type ++ (if c.notNull then " NOT NULL" else "") ++
    (match c.references with
     | none => ""
     | some (.inl t) => " REFERENCES " ++ t
     | some (.inr tc) => " REFERENCES " ++ tc.1 ++ " (" ++ tc.2 ++ ")")

/-- createTableStatement embeds the `CREATE TABLE IF NOT EXISTS` template of
`ensureTableInDatabase`, whitespace included. -/
def createTableStatement (cfg : StoreCfg) : String :=
  "\n      CREATE TABLE IF NOT EXISTS " ++ cfg.tableName ++ " (" ++
    String.intercalate ", "
      (["id uuid NOT NULL DEFAULT uuid_generate_v4() PRIMARY KEY",
        cfg.pageContentColumn ++ " text",
        "metadata jsonb",
        "embedding " ++ extBuildDataType cfg.ext cfg.dims] ++
       cfg.extraColumns.map extraColumnDDL) ++ ");\n    "

/-- PGVectorStore.ensureTableInDatabase lists the statements
`ensureTableInDatabase` issues on the database instance, in order. -/
def PGVectorStore.ensureTableInDatabase (cfg : StoreCfg) : List Ev :=
  [Ev.exec 0 (buildEnsureExtensionStatement cfg.ext),
   Ev.exec 0 "CREATE EXTENSION IF NOT EXISTS \"uuid-ossp\";",
   Ev.exec 0 (createTableStatement cfg)]

/-- DocumentIn is the document argument of `addVectors`. -/
structure DocumentIn where
  pageContent : String
  metadata : List (String × JVal)

/-- extBuildInsertionVector embeds `buildInsertionVector`: a `[...]` literal
for pgvector and a brace-wrapped literal for pg_embedding. -/
def extBuildInsertionVector (ext : ExtKind) (v : List ℚ) : String :=
  match ext with
  | .pgvector => "[" ++ joinCommaVec v ++ "]"
  | .pgembedding => "\x7b" ++ joinCommaVec v ++ "\x7d"

/-- buildRow embeds the per-document row construction of `addVectors`:
page content, the extension's insertion literal, the metadata object, and
the supplied extra columns filtered to the declared extra-column names. -/
def buildRow (cfg : StoreCfg) (embedding : List ℚ) (doc : DocumentIn)
    (extra : Option (List (String × JVal))) : List (String × JVal) :=
  let extraColumns := (extra.getD []).filter (fun p => cfg.extraColumns.any (fun c => c.name == p.1))
  [(cfg.pageContentColumn, JVal.str doc.pageContent),
   ("embedding", JVal.str (extBuildInsertionVector cfg.ext embedding)),
   ("metadata", JVal.jobj (JObj.ofList doc.metadata))] ++ extraColumns

/-- Modelled from the spec: pg-promise's `helpers.insert` with a
`ColumnSet` (the driver's single parameterized multi-row INSERT of spec
section 4.F); the column set is read from the first row's keys. -/
def pgpHelpersInsert (table : String) (cols : List String)
    (rows : List (List (String × JVal))) : String :=
  "INSERT INTO \"" ++ table ++ "\"(" ++
    String.intercalate "," (cols.map (fun c => "\"" ++ c ++ "\"")) ++ ") VALUES " ++
    String.intercalate "," (rows.map (fun r =>
      "(" ++ String.intercalate "," (cols.map (fun c => fmtLit ((jsLookupOpt c r).getD .jnull))) ++ ")"))

/-- PGVectorStore.addVectors embeds `addVectors` as its effect trace and
outcome: run `ensureTableInDatabase`, build the rows, then run (through
`runQuery`) a closure that reads the column set from the first row —
raising `Object.keys(undefined)`'s `TypeError` when the row list is
empty — and otherwise issues the multi-row INSERT. -/
def PGVectorStore.addVectors (cfg : StoreCfg) (vectors : List (List ℚ))
    (documents : List DocumentIn)
    (opts : Option (List (Option (List (String × JVal))))) :
    List Ev × Except String Unit :=
  let ensure := PGVectorStore.ensureTableInDatabase cfg
  let rows := vectors.enum.map (fun p =>
    buildRow cfg p.2 ((documents.get? p.1).getD ⟨"", []⟩)
      (match opts with
       | none => none
       | some l => (l.get? p.1).join))
  let closure : PGQuery Unit := fun h =>
    match rows.head? with
    | none => ([], Except.error "TypeError: Cannot convert undefined or null to object")
    | some r0 => ([Ev.exec h (pgpHelpersInsert cfg.tableName (r0.map Prod.fst) rows)], Except.ok ())
  let run := PGVectorStore.runQuery cfg.ext cfg.useHnswIndex closure
  (ensure ++ run.1, run.2)

/-- dotQ is the inner product of two numeric vectors. -/
def dotQ (a b : List ℚ) : ℚ := (List.zipWith (· * ·) a b).sum

/-- argmaxFrom scans a candidate list keeping the best-scoring index,
replacing only on a strictly greater score (ties keep the earlier index). -/
def argmaxFrom (f : ℕ → ℚ) (best : ℕ) : List ℕ → ℕ
  | [] => best
  | x :: xs => argmaxFrom f (if f x > f best then x else best) xs

/-- argmaxIdx returns the index of the maximal score in a candidate list,
ties broken toward the earlier entry; `none` on an empty list. -/
def argmaxIdx (f : ℕ → ℚ) : List ℕ → Option ℕ
  | [] => none
  | x :: xs => some (argmaxFrom f x xs)

/-- Modelled from the spec: the maximal similarity of a candidate to the
already selected embeddings (0 when nothing is selected yet). -/
def maxSimToSelected (sim : List ℚ → List ℚ → ℚ) (es : List (List ℚ))
    (cand : List ℚ) (sel : List ℕ) : ℚ :=
  match sel with
  | [] => 0
  | s :: rest => (rest.map (fun j => sim cand (es.getD j []))).foldl max (sim cand (es.getD s []))

/-- Modelled from the spec: the marginal-relevance score
`lambda * sim(q, e_i) - (1 - lambda) * max_(j in selected) sim(e_i, e_j)`
of spec section 4.B. -/
def mmrScore (sim : List ℚ → List ℚ → ℚ) (q : List ℚ) (es : List (List ℚ))
    (lambda : ℚ) (sel : List ℕ) (i : ℕ) : ℚ :=
  lambda * sim q (es.getD i []) - (1 - lambda) * maxSimToSelected sim es (es.getD i []) sel

/-- mmrLoop iteratively selects the best-scoring remaining candidate,
padding with `-1` if selection underflows (spec section 4.B). -/
def mmrLoop (score : List ℕ → ℕ → ℚ) : ℕ → List ℕ → List ℕ → List ℤ
  | 0, _, _ => []
  | fuel + 1, sel, rem =>
    match argmaxIdx (score sel) rem with
    | none => List.replicate (fuel + 1) (-1)
    | some i => (i : ℤ) :: mmrLoop score fuel (sel ++ [i]) (rem.erase i)

/-- Modelled from the spec: the MMR kernel `maximalMarginalRelevance` of
`util/math` (not under `src/`), following spec section 4.B: an ordered
index list of length `min(k, n)`, greedily maximising the marginal
relevance score with ties broken toward the smaller index, `-1`-padded on
underflow.  The similarity function is a parameter (the spec fixes it to
cosine similarity; the properties claimed of the kernel do not depend on
it). -/
def maximalMarginalRelevance (sim : List ℚ → List ℚ → ℚ) (queryEmbedding : List ℚ)
    (embeddingList : List (List ℚ)) (lambda : ℚ) (k : ℕ) : List ℤ :=
  mmrLoop (mmrScore sim queryEmbedding embeddingList lambda)
    (min k embeddingList.length) [] (List.range embeddingList.length)

/-- SearchRow is a fetched candidate row as `maxMarginalRelevanceSearch`
consumes it. -/
structure SearchRow where
  pageContent : String
  metadata : List (String × JVal)
  embedding : List ℚ

/-- DocumentOut is a returned document (page content and metadata). -/
structure DocumentOut where
  pageContent : String
  metadata : List (String × JVal)

/-- PGVectorStore.maxMarginalRelevanceSearch embeds the MMR projection of
`maxMarginalRelevanceSearch` over the fetched candidate rows: run the
kernel on the candidate embeddings, drop `-1` padding entries, and build a
document from each surviving index. -/
def PGVectorStore.maxMarginalRelevanceSearch (sim : List ℚ → List ℚ → ℚ)
    (queryEmbedding : List ℚ) (results : List SearchRow) (lambda : ℚ) (k : ℕ) :
    List DocumentOut :=
  let embeddings := results.map (fun r => r.embedding)
  let mmrIndexes := maximalMarginalRelevance sim queryEmbedding embeddings lambda k
  (mmrIndexes.filter (fun i => i != -1)).filterMap
    (fun idx => (results.get? idx.toNat).map (fun r => ⟨r.pageContent, r.metadata⟩))

/-- insertAscBy inserts into a list sorted ascending by the given key. -/
def insertAscBy {α : Type} (dist : α → ℚ) (x : α) : List α → List α
  | [] => [x]
  | y :: ys => if dist x < dist y then x :: y :: ys else y :: insertAscBy dist x ys

/-- orderByDistanceAsc models `ORDER BY "_distance"` (ascending, the only
order the fetch pipeline emits) as an insertion sort by the distance key. -/
def orderByDistanceAsc {α : Type} (dist : α → ℚ) (l : List α) : List α :=
  l.foldr (insertAscBy dist) []

/-- Modelled from the spec: pgvector's `<#>` operator evaluates to the
negative inner product (spec section 4.C distance table). -/
def pgvNegativeInnerProduct (e q : List ℚ) : ℚ := -(dotQ e q)

/-- pgvInnerProductDistanceValue is the value of the emitted pgvector
inner-product `_distance` expression `(embedding <#> $1::vector) * -1`. -/
def pgvInnerProductDistanceValue (e q : List ℚ) : ℚ :=
  pgvNegativeInnerProduct e q * (-1)

/-- hasQueryField recognises the object values whose `query` field the
`myValue` extraction of `buildClause` unwraps (text-search payloads). -/
def hasQueryField : JVal → Bool
  | .jobj e => jsHasKey "query" e.toList
  | _ => false

theorem digitsVal_append (l : List ℕ) (d : ℕ) :
    digitsVal (l ++ [d]) = digitsVal l * 10 + d := by
  simp [digitsVal, List.foldl_append]

theorem digitsVal_natToDigitsRev : ∀ fuel n : ℕ, n ≤ fuel →
    digitsVal ((natToDigitsRev fuel n).reverse) = n := by
  intro fuel
  induction fuel with
  | zero =>
    intro n hn
    interval_cases n
    simp [natToDigitsRev, digitsVal]
  | succ f ih =>
    intro n hn
    by_cases h0 : n = 0
    · simp [natToDigitsRev, h0, digitsVal]
    · have hdiv : n / 10 ≤ f := by
        have : n / 10 < n := Nat.div_lt_self (Nat.pos_of_ne_zero h0) (by norm_num)
        omega
      simp only [natToDigitsRev, if_neg h0, List.reverse_cons]
      rw [digitsVal_append, ih _ hdiv]
      omega

theorem natToDigitsRev_lt_ten : ∀ fuel n d : ℕ, d ∈ natToDigitsRev fuel n → d < 10 := by
  intro fuel
  induction fuel with
  | zero => intro n d h; simp [natToDigitsRev] at h
  | succ f ih =>
    intro n d h
    by_cases h0 : n = 0
    · simp [natToDigitsRev, h0] at h
    · simp only [natToDigitsRev, if_neg h0, List.mem_cons] at h
      rcases h with h | h
      · omega
      · exact ih _ _ h

theorem natToDigitsRev_ne_nil (n : ℕ) (h0 : n ≠ 0) : natToDigitsRev n n ≠ [] := by
  cases n with
  | zero => exact absurd rfl h0
  | succ m => simp [natToDigitsRev]

theorem charDigitVal_digitChar (d : ℕ) (h : d < 10) : charDigitVal (digitChar d) = d := by
  interval_cases d <;> decide

theorem digitChar_isDigit (d : ℕ) (h : d < 10) : (digitChar d).isDigit = true := by
  interval_cases d <;> decide

theorem digitChar_not_ws (d : ℕ) (h : d < 10) : jsWhitespace (digitChar d) = false := by
  interval_cases d <;> decide

theorem digitChar_ne_minus (d : ℕ) (h : d < 10) : digitChar d ≠ '-' := by
  interval_cases d <;> decide

theorem digitChar_ne_plus (d : ℕ) (h : d < 10) : digitChar d ≠ '+' := by
  interval_cases d <;> decide

theorem takeWhile_all {p : Char → Bool} : ∀ l : List Char, (∀ x ∈ l, p x = true) →
    l.takeWhile p = l := by
  intro l
  induction l with
  | nil => intro _; rfl
  | cons x xs ih =>
    intro hl
    simp [List.takeWhile_cons, hl x (List.mem_cons_self x xs)]
    intro y hy
    exact hl y (List.mem_cons_of_mem x hy)

theorem dropWhile_all {p : Char → Bool} : ∀ l : List Char, (∀ x ∈ l, p x = true) →
    l.dropWhile p = [] := by
  intro l
  induction l with
  | nil => intro _; rfl
  | cons x xs ih =>
    intro hl
    simp [List.dropWhile_cons, hl x (List.mem_cons_self x xs)]
    intro y hy
    exact hl y (List.mem_cons_of_mem x hy)

theorem map_charDigitVal_digitChar (ds : List ℕ) (h : ∀ d ∈ ds, d < 10) :
    (ds.map digitChar).map charDigitVal = ds := by
  rw [List.map_map]
  have h2 : ∀ d ∈ ds, (charDigitVal ∘ digitChar) d = id d := by
    intro d hd
    simp [charDigitVal_digitChar d (h d hd)]
  rw [List.map_congr_left h2, List.map_id]

theorem jsParseFloat_digitChars (d0 : ℕ) (ds : List ℕ) (hall : ∀ d ∈ d0 :: ds, d < 10) :
    jsParseFloat (String.mk ((d0 :: ds).map digitChar)) = some ((digitsVal (d0 :: ds) : ℕ) : ℚ) := by
  have hd0 : d0 < 10 := hall d0 (List.mem_cons_self d0 ds)
  have hdigs : ∀ c ∈ (d0 :: ds).map digitChar, Char.isDigit c = true := by
    intro c hc
    rcases List.mem_map.mp hc with ⟨d, hd, rfl⟩
    exact digitChar_isDigit d (hall d hd)
  have h1 : (String.mk ((d0 :: ds).map digitChar)).toList.dropWhile jsWhitespace
      = (d0 :: ds).map digitChar := by
    show ((d0 :: ds).map digitChar).dropWhile jsWhitespace = (d0 :: ds).map digitChar
    simp [List.dropWhile_cons, digitChar_not_ws d0 hd0]
  have h2 : readSign ((d0 :: ds).map digitChar) = (false, (d0 :: ds).map digitChar) := by
    simp [readSign, digitChar_ne_minus d0 hd0, digitChar_ne_plus d0 hd0]
  have h3 : ((d0 :: ds).map digitChar).takeWhile Char.isDigit = (d0 :: ds).map digitChar :=
    takeWhile_all _ hdigs
  have h4 : ((d0 :: ds).map digitChar).dropWhile Char.isDigit = [] :=
    dropWhile_all _ hdigs
  have h5 : ((d0 :: ds).map digitChar).isEmpty = false := by simp
  rw [jsParseFloat, h1, h2]
  simp only [h3, h4, h5]
  rw [map_charDigitVal_digitChar _ hall]
  norm_num [digitsVal]

theorem jsParseFloat_neg_digitChars (d0 : ℕ) (ds : List ℕ) (hall : ∀ d ∈ d0 :: ds, d < 10) :
    jsParseFloat (String.mk ('-' :: (d0 :: ds).map digitChar))
      = some (-((digitsVal (d0 :: ds) : ℕ) : ℚ)) := by
  have hdigs : ∀ c ∈ (d0 :: ds).map digitChar, Char.isDigit c = true := by
    intro c hc
    rcases List.mem_map.mp hc with ⟨d, hd, rfl⟩
    exact digitChar_isDigit d (hall d hd)
  have h1 : (String.mk ('-' :: (d0 :: ds).map digitChar)).toList.dropWhile jsWhitespace
      = '-' :: (d0 :: ds).map digitChar := by
    show ('-' :: (d0 :: ds).map digitChar).dropWhile jsWhitespace
      = '-' :: (d0 :: ds).map digitChar
    simp [List.dropWhile_cons, jsWhitespace]
  have h2 : readSign ('-' :: (d0 :: ds).map digitChar) = (true, (d0 :: ds).map digitChar) := by
    simp [readSign]
  have h3 : ((d0 :: ds).map digitChar).takeWhile Char.isDigit = (d0 :: ds).map digitChar :=
    takeWhile_all _ hdigs
  have h4 : ((d0 :: ds).map digitChar).dropWhile Char.isDigit = [] :=
    dropWhile_all _ hdigs
  have h5 : ((d0 :: ds).map digitChar).isEmpty = false := by simp
  rw [jsParseFloat, h1, h2]
  simp only [h3, h4, h5]
  rw [map_charDigitVal_digitChar _ hall]
  norm_num [digitsVal]

theorem jsParseFloat_natToString (n : ℕ) : jsParseFloat (natToString n) = some ((n : ℕ) : ℚ) := by
  by_cases h0 : n = 0
  · subst h0
    rw [show natToString 0 = "0" from rfl]
    rw [show ("0" : String) = String.mk ([0].map digitChar) from rfl]
    rw [jsParseFloat_digitChars 0 [] (by intro d hd; simp at hd; omega)]
    simp [digitsVal]
  · have hdl := natToDigitsRev_lt_ten n n
    have hne := natToDigitsRev_ne_nil n h0
    rw [natToString, if_neg h0]
    obtain ⟨d0, ds, hds⟩ : ∃ d0 ds, (natToDigitsRev n n).reverse = d0 :: ds := by
      rcases hrev : (natToDigitsRev n n).reverse with _ | ⟨d0, ds⟩
      · exact absurd (by simpa using congrArg List.reverse hrev) hne
      · exact ⟨d0, ds, rfl⟩
    rw [hds]
    have hall : ∀ d ∈ d0 :: ds, d < 10 := by
      intro d hd
      rw [← hds] at hd
      exact hdl d (List.mem_reverse.mp hd)
    rw [jsParseFloat_digitChars d0 ds hall, ← hds,
      digitsVal_natToDigitsRev n n (le_refl n)]

theorem jsParseFloat_intToString (i : ℤ) : jsParseFloat (intToString i) = some ((i : ℤ) : ℚ) := by
  by_cases hneg : i < 0
  · have h0 : i.natAbs ≠ 0 := by
      intro hc
      omega
    have hdl := natToDigitsRev_lt_ten i.natAbs i.natAbs
    have hne := natToDigitsRev_ne_nil i.natAbs h0
    rw [intToString, if_pos hneg, natToString, if_neg h0]
    obtain ⟨d0, ds, hds⟩ : ∃ d0 ds, (natToDigitsRev i.natAbs i.natAbs).reverse = d0 :: ds := by
      rcases hrev : (natToDigitsRev i.natAbs i.natAbs).reverse with _ | ⟨d0, ds⟩
      · exact absurd (by simpa using congrArg List.reverse hrev) hne
      · exact ⟨d0, ds, rfl⟩
    rw [hds]
    have hall : ∀ d ∈ d0 :: ds, d < 10 := by
      intro d hd
      rw [← hds] at hd
      exact hdl d (List.mem_reverse.mp hd)
    have happ : ("-" ++ String.mk ((d0 :: ds).map digitChar))
        = String.mk ('-' :: (d0 :: ds).map digitChar) := rfl
    rw [happ, jsParseFloat_neg_digitChars d0 ds hall, ← hds,
      digitsVal_natToDigitsRev i.natAbs i.natAbs (le_refl _)]
    have habs : ((i.natAbs : ℕ) : ℚ) = -((i : ℤ) : ℚ) := by
      rw [Int.cast_natAbs]
      exact_mod_cast abs_of_neg hneg
    rw [habs, neg_neg]
  · rw [intToString, if_neg hneg, jsParseFloat_natToString]
    congr 1
    rw [Int.cast_natAbs]
    exact_mod_cast abs_of_nonneg (not_lt.mp hneg)

theorem numToString_intCast (i : ℤ) : numToString ((i : ℤ) : ℚ) = intToString i := by
  rw [numToString]
  simp [Rat.den_intCast, Rat.num_intCast]

theorem isInt_isString_false (v : JVal) (h : isInt v = true) : isString v = false := by
  cases v with
  | str s =>
    simp only [isInt] at h
    cases hp : jsParseInt s with
    | none => rw [hp] at h; exact absurd h (by simp)
    | some n =>
      rw [hp] at h
      have hs : intToString n = s := by simpa [beq_iff_eq] using h
      subst hs
      simp only [isString, jsParseFloat_intToString n, numToString_intCast n]
      simp
  | num q => rfl
  | jbool b => rfl
  | jnull => rfl
  | jarr l => rfl
  | jobj e => rfl

theorem isFloat_isString_false (v : JVal) (h : isFloat v = true) : isString v = false := by
  cases v with
  | str s =>
    simp only [isFloat] at h
    cases hp : jsParseFloat s with
    | none => rw [hp] at h; exact absurd h (by simp)
    | some q =>
      rw [hp] at h
      have hs : numToString q = s := by
        have := (Bool.and_eq_true _ _).mp h
        simpa [beq_iff_eq] using this.2
      simp only [isString, hp]
      simp [hs]
  | num q => rfl
  | jbool b => rfl
  | jnull => rfl
  | jarr l => rfl
  | jobj e => rfl

theorem isFloat_isInt_false (v : JVal) (h : isFloat v = true) : isInt v = false := by
  cases v with
  | num q =>
    simp only [isFloat, bne_iff_ne] at h
    simp [isInt, h]
  | str s =>
    simp only [isFloat] at h
    cases hp : jsParseFloat s with
    | none => rw [hp] at h; exact absurd h (by simp)
    | some q =>
      rw [hp] at h
      have hand := (Bool.and_eq_true _ _).mp h
      have hden : q.den ≠ 1 := by simpa [bne_iff_ne] using hand.1
      have hs : numToString q = s := by simpa [beq_iff_eq] using hand.2
      simp only [isInt]
      cases hpi : jsParseInt s with
      | none => rfl
      | some n =>
        have hne : intToString n ≠ s := by
          intro heq
          rw [← heq, jsParseFloat_intToString n] at hp
          have hq : q = ((n : ℤ) : ℚ) := by
            injection hp with h1
            exact h1.symm
          rw [hq, Rat.den_intCast] at hden
          exact hden rfl
        simp [hne]
  | jbool b => rfl
  | jnull => rfl
  | jarr l => rfl
  | jobj e => rfl

theorem myValueOf_eq_self (v : JVal) (h : hasQueryField v = false) : myValueOf v = v := by
  cases v with
  | jobj e =>
    simp only [hasQueryField] at h
    simp [myValueOf, h]
  | num q => rfl
  | str s => rfl
  | jbool b => rfl
  | jnull => rfl
  | jarr l => rfl
theorem argmaxFrom_mem (f : ℕ → ℚ) : ∀ (l : List ℕ) (best : ℕ),
    argmaxFrom f best l = best ∨ argmaxFrom f best l ∈ l := by
  intro l
  induction l with
  | nil => intro best; left; rfl
  | cons x xs ih =>
    intro best
    simp only [argmaxFrom]
    rcases ih (if f x > f best then x else best) with h | h
    · by_cases hc : f x > f best
      · right
        rw [h, if_pos hc]
        exact List.mem_cons_self x xs
      · left
        rw [h, if_neg hc]
    · right
      exact List.mem_cons_of_mem x h

theorem argmaxIdx_mem (f : ℕ → ℚ) (l : List ℕ) (i : ℕ) (h : argmaxIdx f l = some i) :
    i ∈ l := by
  cases l with
  | nil => simp [argmaxIdx] at h
  | cons x xs =>
    simp only [argmaxIdx, Option.some.injEq] at h
    subst h
    rcases argmaxFrom_mem f xs x with h | h
    · rw [h]; exact List.mem_cons_self x xs
    · exact List.mem_cons_of_mem x h

theorem length_filterMap_of_isSome {α β : Type} (g : α → Option β) :
    ∀ l : List α, (∀ a ∈ l, (g a).isSome = true) → (l.filterMap g).length = l.length := by
  intro l
  induction l with
  | nil => intro _; rfl
  | cons x xs ih =>
    intro hl
    have hx := hl x (List.mem_cons_self x xs)
    rcases hgx : g x with _ | b
    · rw [hgx] at hx; simp at hx
    · rw [List.filterMap_cons, hgx]
      simp only [List.length_cons]
      rw [ih (fun a ha => hl a (List.mem_cons_of_mem x ha))]

theorem mmrLoop_spec (score : List ℕ → ℕ → ℚ) : ∀ (fuel : ℕ) (sel rem : List ℕ),
    rem.Nodup → fuel ≤ rem.length →
    ∃ picks : List ℕ, mmrLoop score fuel sel rem = picks.map Int.ofNat ∧
      picks.Nodup ∧ (∀ i ∈ picks, i ∈ rem) ∧ picks.length = fuel := by
  intro fuel
  induction fuel with
  | zero =>
    intro sel rem _ _
    exact ⟨[], rfl, List.nodup_nil, by simp, rfl⟩
  | succ f ih =>
    intro sel rem hnd hlen
    obtain ⟨x, xs, rfl⟩ : ∃ x xs, rem = x :: xs := by
      cases rem with
      | nil => simp at hlen
      | cons x xs => exact ⟨x, xs, rfl⟩
    have himem : argmaxFrom (score sel) x xs ∈ x :: xs := by
      rcases argmaxFrom_mem (score sel) xs x with h | h
      · rw [h]; exact List.mem_cons_self x xs
      · exact List.mem_cons_of_mem x h
    have herase_len : ((x :: xs).erase (argmaxFrom (score sel) x xs)).length = xs.length := by
      rw [List.length_erase_of_mem himem]
      simp
    obtain ⟨picks, heq, hnd2, hsub, hlen2⟩ :=
      ih (sel ++ [argmaxFrom (score sel) x xs]) ((x :: xs).erase (argmaxFrom (score sel) x xs))
        (hnd.erase _) (by simp at hlen; omega)
    refine ⟨argmaxFrom (score sel) x xs :: picks, ?_, ?_, ?_, ?_⟩
    · simp only [mmrLoop, argmaxIdx, heq, List.map_cons]
      rfl
    · rw [List.nodup_cons]
      refine ⟨fun hc => ?_, hnd2⟩
      have := hsub _ hc
      rw [List.Nodup.mem_erase_iff hnd] at this
      exact this.1 rfl
    · intro j hj
      rcases List.mem_cons.mp hj with rfl | hj
      · exact himem
      · exact List.erase_subset _ _ (hsub j hj)
    · simp [hlen2]
/-- Claim C3: for every fetch, `runQuery` routes the query closure through
the extension's `runQueryWrapper` if and only if `useHnswIndex` is true;
the pgvector wrapper is the identity (it applies the closure directly to
the database handle), while the pg_embedding wrapper runs the closure
inside a transaction that first issues `SET LOCAL enable_seqscan = off`. -/
theorem claim_C3_runQuery_routing (R : Type) (q : PGQuery R) :
    (∀ ext : ExtKind, PGVectorStore.runQuery ext false q = q 0) ∧
    (∀ ext : ExtKind, PGVectorStore.runQuery ext true q = extRunQueryWrapper ext 0 q) ∧
    (∀ db : ℕ, PGVectorExt.runQueryWrapper db q = q db) ∧
    (∀ db : ℕ, PGEmbeddingExt.runQueryWrapper db q =
      (Ev.txBegin (db + 1) :: Ev.exec (db + 1) "SET LOCAL enable_seqscan = off;" ::
        ((q (db + 1)).1 ++
          [match (q (db + 1)).2 with
           | .ok _ => Ev.txCommit (db + 1)
           | .error _ => Ev.txRollback (db + 1)]), (q (db + 1)).2)) :=
  ⟨fun _ => rfl, fun _ => rfl, fun _ => rfl, fun _ => rfl⟩

/-- Claim C9: calling `addVectors` with an empty batch is not a no-op:
the `ensureTableInDatabase` statements are issued first as a side effect,
and the call then fails with the `TypeError` raised by reading the column
set from the first row of the empty row list — before any INSERT is
issued (only the pg_embedding HNSW wrapper's transaction bookkeeping can
follow the DDL). -/
theorem claim_C9_addVectors_empty_batch (cfg : StoreCfg)
    (opts : Option (List (Option (List (String × JVal))))) :
    PGVectorStore.addVectors cfg [] [] opts =
      (PGVectorStore.ensureTableInDatabase cfg ++
        (if cfg.useHnswIndex then
          match cfg.ext with
          | .pgvector => []
          | .pgembedding =>
            [Ev.txBegin 1, Ev.exec 1 "SET LOCAL enable_seqscan = off;", Ev.txRollback 1]
         else []),
       Except.error "TypeError: Cannot convert undefined or null to object") := by
  obtain ⟨ext, metric, dims, hnsw, tn, pc, ec⟩ := cfg
  cases hnsw <;> cases ext <;> rfl

/-- Claim C6 (amended): a `null` filter and the empty object `{}` compile
to `null` and contribute no WHERE fragment to the assembled fetch query;
but a logical node with an empty child list, such as `{$and: []}`, does
not yield `null` — it compiles to the fragment `WHERE ()`. -/
theorem claim_C6_empty_filter_amended (mode : FMode) (pc : String) (cfg : StoreCfg)
    (queryVec : List ℚ) (k : ℕ) (rc : Option (List String)) :
    buildSqlFilterStr none mode pc = .ok none ∧
    buildSqlFilterStr (some (.jobj .nil)) mode pc = .ok none ∧
    PGVectorStore.fetchRows cfg queryVec k (some { metadataFilter := some (.jobj .nil) }) rc
      = PGVectorStore.fetchRows cfg queryVec k none rc ∧
    buildSqlFilterStr (some (.jobj (.cons "$and" (.jarr .nil) .nil))) mode pc
      = .ok (some "WHERE ()") :=
  ⟨rfl, rfl, rfl, rfl⟩

/-- Claim C6 counterexample: on the filter `{$and: []}` — a filter with no
comparison leaves — `buildSqlFilterStr` does not return `null` as the
claim states; it returns the fragment `WHERE ()`. -/
theorem claim_C6_counterexample :
    buildSqlFilterStr (some (.jobj (.cons "$and" (.jarr .nil) .nil))) .metadata "content"
      = .ok (some "WHERE ()") := by decide

/-- Claim C8: a filter supplying both `metadataFilter` and `columnFilter`
makes the fetch fail before any SQL is issued (the executed trace is
empty); with no join attached the error is the mutual-exclusion message;
when exactly one of the two is supplied, compilation proceeds in the
corresponding mode (`metadata`, resp. `column`). -/
theorem claim_C8_mutually_exclusive_filters (cfg : StoreCfg) (queryVec : List ℚ) (k : ℕ)
    (mf cf : JVal) (jn : Option JoinSpec) (rc : Option (List String)) :
    (∃ e, PGVectorStore.fetchRows cfg queryVec k
        (some ⟨some mf, some cf, jn⟩) rc = .error e) ∧
    (PGVectorStore.fetchRowsExec cfg queryVec k (some ⟨some mf, some cf, jn⟩) rc).1 = [] ∧
    PGVectorStore.fetchRows cfg queryVec k (some ⟨some mf, some cf, none⟩) rc
      = .error "Cannot have both metadataFilter and columnFilter" ∧
    PGVectorStore.fetchRows cfg queryVec k (some ⟨some mf, none, none⟩) rc
      = fetchRowsAssemble cfg queryVec k .metadata (some mf) [] false rc ∧
    PGVectorStore.fetchRows cfg queryVec k (some ⟨none, some cf, none⟩) rc
      = fetchRowsAssemble cfg queryVec k .column (some cf) [] false rc := by
  have herr : ∃ e, PGVectorStore.fetchRows cfg queryVec k
      (some ⟨some mf, some cf, jn⟩) rc = .error e := by
    rcases jn with _ | j | l
    · exact ⟨"Cannot have both metadataFilter and columnFilter", rfl⟩
    · have h1 : PGVectorStore.fetchRows cfg queryVec k
          (some ⟨some mf, some cf, some (.single j)⟩) rc
          = Except.bind (Except.map (fun s => [s]) (PGVectorStore.buildJoinStatement j))
            (fun _ => Except.error "Cannot have both metadataFilter and columnFilter") := rfl
      cases hb : PGVectorStore.buildJoinStatement j with
      | error e => exact ⟨e, by rw [h1, hb]; rfl⟩
      | ok s =>
        exact ⟨"Cannot have both metadataFilter and columnFilter", by rw [h1, hb]; rfl⟩
    · have h1 : PGVectorStore.fetchRows cfg queryVec k
          (some ⟨some mf, some cf, some (.many l)⟩) rc
          = Except.bind (l.mapM PGVectorStore.buildJoinStatement)
            (fun _ => Except.error "Cannot have both metadataFilter and columnFilter") := rfl
      cases hb : l.mapM PGVectorStore.buildJoinStatement with
      | error e => exact ⟨e, by rw [h1, hb]; rfl⟩
      | ok s =>
        exact ⟨"Cannot have both metadataFilter and columnFilter", by rw [h1, hb]; rfl⟩
  refine ⟨herr, ?_, rfl, rfl, rfl⟩
  obtain ⟨e, he⟩ := herr
  simp [PGVectorStore.fetchRowsExec, he]
theorem opsPairsParts_filter_falsy (mode : FMode) (pc key : String) :
    ∀ pairs : List (String × JVal),
      (opsPairsParts mode pc key pairs).map (List.filterMap id)
        = (opsPairsParts mode pc key (pairs.filter (fun p => !jsFalsy p.2))).map
            (List.filterMap id) := by
  intro pairs
  induction pairs with
  | nil => rfl
  | cons p ps ih =>
    by_cases hf : jsFalsy p.2 = true
    · rw [List.filter_cons_of_neg (by simp [hf])]
      cases h : opsPairsParts mode pc key ps with
      | error e =>
        have hL : opsPairsParts mode pc key (p :: ps) = .error e := by
          simp [opsPairsParts, Except.map, Except.bind, Functor.map, hf, h]
        rw [hL, ← ih, h]
      | ok rest =>
        have hL : opsPairsParts mode pc key (p :: ps) = .ok (none :: rest) := by
          simp [opsPairsParts, Except.map, Except.bind, Functor.map, hf, h]
        rw [hL, ← ih, h]
        simp [Except.map]
    · rw [List.filter_cons_of_pos (by simp [hf])]
      cases hb : buildClause mode pc key p.1 p.2 with
      | error e =>
        have hL : opsPairsParts mode pc key (p :: ps) = .error e := by
          simp [opsPairsParts, Except.map, Except.bind, Functor.map, hf, hb] <;> rfl
        have hR : opsPairsParts mode pc key
            (p :: ps.filter (fun q => !jsFalsy q.2)) = .error e := by
          simp [opsPairsParts, Except.map, Except.bind, Functor.map, hf, hb] <;> rfl
        rw [hL, hR]
      | ok c =>
        cases h : opsPairsParts mode pc key ps with
        | error e =>
          have hL : opsPairsParts mode pc key (p :: ps) = .error e := by
            simp [opsPairsParts, Except.map, Except.bind, Functor.map, hf, hb, h] <;> rfl
          cases h2 : opsPairsParts mode pc key (ps.filter (fun q => !jsFalsy q.2)) with
          | error e2 =>
            have he : e = e2 := by
              rw [h, h2] at ih
              simpa [Except.map] using ih
            have hR : opsPairsParts mode pc key
                (p :: ps.filter (fun q => !jsFalsy q.2)) = .error e2 := by
              simp [opsPairsParts, Except.map, Except.bind, Functor.map, hf, hb, h2] <;> rfl
            rw [hL, hR, he]
          | ok rest2 =>
            rw [h, h2] at ih
            simp [Except.map] at ih
        | ok rest =>
          cases h2 : opsPairsParts mode pc key (ps.filter (fun q => !jsFalsy q.2)) with
          | error e2 =>
            rw [h, h2] at ih
            simp [Except.map] at ih
          | ok rest2 =>
            have hfm : rest.filterMap id = rest2.filterMap id := by
              rw [h, h2] at ih
              simpa [Except.map] using ih
            have hL : opsPairsParts mode pc key (p :: ps) = .ok (some c :: rest) := by
              simp [opsPairsParts, Except.map, Except.bind, Functor.map, hf, hb, h] <;> rfl
            have hR : opsPairsParts mode pc key
                (p :: ps.filter (fun q => !jsFalsy q.2)) = .ok (some c :: rest2) := by
              simp [opsPairsParts, Except.map, Except.bind, Functor.map, hf, hb, h2] <;> rfl
            rw [hL, hR]
            simp [Except.map, hfm]

theorem buildOpsObject_filter_falsy (mode : FMode) (pc key : String)
    (pairs : List (String × JVal)) :
    buildOpsObject mode pc key pairs
      = buildOpsObject mode pc key (pairs.filter (fun p => !jsFalsy p.2)) := by
  have hparts := opsPairsParts_filter_falsy mode pc key pairs
  unfold buildOpsObject
  cases h1 : opsPairsParts mode pc key pairs with
  | error e =>
    cases h2 : opsPairsParts mode pc key (pairs.filter (fun p => !jsFalsy p.2)) with
    | error e2 =>
      have : e = e2 := by
        rw [h1, h2] at hparts
        simpa [Except.map] using hparts
      rw [this]
    | ok rest2 =>
      rw [h1, h2] at hparts
      simp [Except.map] at hparts
  | ok rest =>
    cases h2 : opsPairsParts mode pc key (pairs.filter (fun p => !jsFalsy p.2)) with
    | error e2 =>
      rw [h1, h2] at hparts
      simp [Except.map] at hparts
    | ok rest2 =>
      have : rest.filterMap id = rest2.filterMap id := by
        rw [h1, h2] at hparts
        simpa [Except.map] using hparts
      simp [Except.bind, this]

/-- Claim C5 (amended): an entry given as an operator object
`{field: {op: value}}` whose value is falsy (null, 0, or the empty string)
is dropped from its AND group; but an implicit-equality entry
`{field: value}` with a falsy value is not dropped: `{a: 0}` and `{a: ""}`
emit comparison clauses, and `{a: null}` raises `Object.entries`'s
`TypeError` instead of being dropped. -/
theorem claim_C5_falsy_drop_amended (mode : FMode) (pc key : String)
    (pairs : List (String × JVal)) :
    buildOpsObject mode pc key pairs
      = buildOpsObject mode pc key (pairs.filter (fun p => !jsFalsy p.2)) ∧
    buildSqlFilterStr (some (.jobj (.cons "a" (.num 0) .nil))) .metadata "content"
      = .ok (some "WHERE (metadata->'a')::int = 0") ∧
    buildSqlFilterStr (some (.jobj (.cons "a" (.str "") .nil))) .metadata "content"
      = .ok (some "WHERE (metadata->>'a')::text = ''") ∧
    buildSqlFilterStr (some (.jobj (.cons "a" .jnull .nil))) .metadata "content"
      = .error "TypeError: Cannot convert undefined or null to object" :=
  ⟨buildOpsObject_filter_falsy mode pc key pairs, by decide, by decide, by decide⟩

/-- Claim C5 counterexample: the implicit-equality entry `{a: 0}` has a
falsy value, yet the filter compiler does not drop it — it emits the
clause `(metadata->'a')::int = 0` rather than compiling to `null`. -/
theorem claim_C5_counterexample :
    buildSqlFilterStr (some (.jobj (.cons "a" (.num 0) .nil))) .metadata "content"
      = .ok (some "WHERE (metadata->'a')::int = 0") ∧
    (Except.ok (some "WHERE (metadata->'a')::int = 0")
      : Except String (Option String)) ≠ .ok none :=
  ⟨by decide, by decide⟩
/-- Claim C4: in metadata mode, for a comparison clause (field, op, value)
whose field is not the page-content column (and whose operator is a known
comparison operator other than `$textSearch`, with a scalar rather than
text-search value), the compiler picks the JSON accessor and cast from the
scalar type of the value: an `isString` value (non-numeric string) emits
`metadata->>'key'` with `::text`, an `isInt` value (integer or
integer-round-tripping string) emits `metadata->'key'` with `::int`, an
`isFloat` value (float or float-round-tripping string) emits
`metadata->'key'` with `::float`, and any other value raises
`Data type not supported`. -/
theorem claim_C4_metadata_cast_dispatch (key pc op : String) (v : JVal)
    (hkey : key ≠ pc) (hts : op ≠ "$textSearch") (hq : hasQueryField v = false) :
    (isString v = true → buildClause .metadata pc key op v
      = .ok ("(metadata->>'" ++ key ++ "')::text "
          ++ (comparisonMapLookup op).getD "undefined" ++ " " ++ fmtLit v)) ∧
    (isInt v = true → buildClause .metadata pc key op v
      = .ok ("(metadata->'" ++ key ++ "')::int "
          ++ (comparisonMapLookup op).getD "undefined" ++ " " ++ fmtLit v)) ∧
    (isFloat v = true → buildClause .metadata pc key op v
      = .ok ("(metadata->'" ++ key ++ "')::float "
          ++ (comparisonMapLookup op).getD "undefined" ++ " " ++ fmtLit v)) ∧
    (isString v = false → isInt v = false → isFloat v = false →
      buildClause .metadata pc key op v = .error "Data type not supported") := by
  have hmv : myValueOf v = v := myValueOf_eq_self v hq
  refine ⟨?_, ?_, ?_, ?_⟩
  · intro hS
    simp only [buildClause, hmv, hS, if_true, if_neg hkey, if_neg hts]
    norm_num
    apply String.ext
    simp [String.data_append]
  · intro hI
    have hS := isInt_isString_false v hI
    simp only [buildClause, hmv, hS, hI, Bool.false_eq_true, if_false, if_true,
      if_neg hkey, if_neg hts]
    norm_num
    apply String.ext
    simp [String.data_append]
  · intro hF
    have hS := isFloat_isString_false v hF
    have hI := isFloat_isInt_false v hF
    simp only [buildClause, hmv, hS, hI, hF, Bool.false_eq_true, if_false, if_true,
      if_neg hkey, if_neg hts]
    norm_num
    apply String.ext
    simp [String.data_append]
  · intro hS hI hF
    simp only [buildClause, hmv, hS, hI, hF, Bool.false_eq_true, if_false]

/-- Witness for claim C4: at the concrete clause (age, $gte, "abc") with
page-content column `content`, the value is a non-numeric string, so the
compiler emits the text accessor and cast. -/
theorem claim_C4_witness :
    buildClause .metadata "content" "age" "$gte" (.str "abc")
      = .ok ("(metadata->>'" ++ "age" ++ "')::text "
          ++ (comparisonMapLookup "$gte").getD "undefined" ++ " " ++ fmtLit (.str "abc")) :=
  (claim_C4_metadata_cast_dispatch "age" "content" "$gte" (.str "abc")
    (by decide) (by decide) (by decide)).1 (by decide)
/-- Claim C7: for every query and options, `maxMarginalRelevanceSearch`
returns exactly `min k n` documents, where `n` is the number of fetched
candidates surviving filtering; each document is built from a distinct
fetched candidate (the kernel's `-1` padding entries are filtered out, not
returned), and fewer than `k` documents (when `n < k`) is an ordinary
result, not an error.  The MMR kernel itself is modelled from the
specification, parameterized by the similarity function. -/
theorem claim_C7_mmr_bounds (sim : List ℚ → List ℚ → ℚ) (queryEmbedding : List ℚ)
    (results : List SearchRow) (lambda : ℚ) (k : ℕ) :
    (PGVectorStore.maxMarginalRelevanceSearch sim queryEmbedding results lambda k).length
      = min k results.length ∧
    ∃ idxs : List ℕ, idxs.Nodup ∧ (∀ i ∈ idxs, i < results.length) ∧
      idxs.length = min k results.length ∧
      PGVectorStore.maxMarginalRelevanceSearch sim queryEmbedding results lambda k
        = idxs.filterMap (fun i => (results.get? i).map
            (fun r => DocumentOut.mk r.pageContent r.metadata)) := by
  have hnr : (results.map (fun r => r.embedding)).length = results.length := by simp
  obtain ⟨picks, heq, hnd, hsub, hlen⟩ :=
    mmrLoop_spec (mmrScore sim queryEmbedding (results.map (fun r => r.embedding)) lambda)
      (min k (results.map (fun r => r.embedding)).length) []
      (List.range (results.map (fun r => r.embedding)).length)
      (List.nodup_range _)
      (by rw [List.length_range]; exact min_le_right _ _)
  have hbound : ∀ i ∈ picks, i < results.length := by
    intro i hi
    have hmem := hsub i hi
    rw [List.mem_range, hnr] at hmem
    exact hmem
  have hfilter : (picks.map Int.ofNat).filter (fun i => i != -1) = picks.map Int.ofNat := by
    rw [List.filter_eq_self]
    intro a ha
    rcases List.mem_map.mp ha with ⟨i, _, rfl⟩
    simp only [bne_iff_ne, ne_eq, decide_eq_true_eq, Int.ofNat_eq_coe]
    omega
  have hsearch : PGVectorStore.maxMarginalRelevanceSearch sim queryEmbedding results lambda k
      = picks.filterMap (fun i => (results.get? i).map
          (fun r => DocumentOut.mk r.pageContent r.metadata)) := by
    have hker : maximalMarginalRelevance sim queryEmbedding
        (results.map (fun r => r.embedding)) lambda k = picks.map Int.ofNat := heq
    simp only [PGVectorStore.maxMarginalRelevanceSearch, hker, hfilter, List.filterMap_map]
    rfl
  have hsome : ∀ i ∈ picks,
      ((results.get? i).map (fun r => DocumentOut.mk r.pageContent r.metadata)).isSome
        = true := by
    intro i hi
    have hlt := hbound i hi
    cases hg : results.get? i with
    | none =>
      rw [List.get?_eq_none] at hg
      omega
    | some r => simp
  constructor
  · rw [hsearch, length_filterMap_of_isSome _ picks hsome, hlen, hnr]
  · exact ⟨picks, hnd, hbound, by rw [hlen, hnr], hsearch⟩
theorem exceptPure_ok_congr {a b : String} (h : a = b) :
    (pure a : Except String String) = Except.ok b := by
  rw [h]
  rfl

/-- Claim C1 (code-bug exhibit): for the pgvector adapter with metric
cosine or inner_product, the emitted "_distance" expression is not of the
distance form `1 - sim` / `-sim` required by the claim: cosine emits
`1 - (embedding <=> q)` where `<=>` is already the cosine *distance*
operator, and inner_product emits `(embedding <#> q) * -1` where `<#>` is
the *negative* inner product — in both cases the emitted value is the
similarity itself.  Concretely, for query `[1,0]` with candidates `[1,0]`
(the nearest, inner product 1) and `[0,1]` (inner product 0), the
ascending `ORDER BY "_distance"` pipeline returns the farthest candidate
first, contradicting nearest-first ordering. -/
theorem claim_C1_distance_direction_bug :
    PGVectorExt.buildFetchRowsStatement .cosine [1, 0] "documents"
        ["id", "content", "metadata"] false
      = .ok "SELECT id, content, metadata, 1 - (embedding <=> '[1,0]'::vector) AS \"_distance\" FROM documents" ∧
    PGVectorExt.buildFetchRowsStatement .inner_product [1, 0] "documents"
        ["id", "content", "metadata"] false
      = .ok "SELECT id, content, metadata, (embedding <#> '[1,0]'::vector) * -1 AS \"_distance\" FROM documents" ∧
    pgvInnerProductDistanceValue [1, 0] [1, 0] = dotQ [1, 0] [1, 0] ∧
    dotQ [1, 0] [1, 0] > dotQ [0, 1] [1, 0] ∧
    orderByDistanceAsc (fun e => pgvInnerProductDistanceValue e [1, 0]) [[1, 0], [0, 1]]
      = [[0, 1], [1, 0]] := by
  refine ⟨by decide, by decide, ?_, ?_, ?_⟩
  · simp [pgvInnerProductDistanceValue, pgvNegativeInnerProduct]
  · norm_num [dotQ]
  · norm_num [orderByDistanceAsc, insertAscBy, pgvInnerProductDistanceValue,
      pgvNegativeInnerProduct, dotQ]

/-- Claim C2 counterexample: a user-supplied filter key is concatenated
raw into the compiled statement.  For the key
`extra_stuff = 'weeewooo'); DROP TABLE injection_test; --` in column mode
the compiled WHERE fragment contains the injected statement text verbatim
and does not contain the driver-escaped identifier; the join builder
likewise emits a user-supplied table name raw. -/
theorem claim_C2_counterexample :
    buildSqlFilterStr
        (some (.jobj (.cons "extra_stuff = 'weeewooo'); DROP TABLE injection_test; --"
          (.jobj (.cons "$eq" (.str "hi") .nil)) .nil)))
        .column "content"
      = .ok (some "WHERE (extra_stuff = 'weeewooo'); DROP TABLE injection_test; --) = 'hi'") ∧
    strContainsSub "WHERE (extra_stuff = 'weeewooo'); DROP TABLE injection_test; --) = 'hi'"
      "; DROP TABLE injection_test; --" = true ∧
    strContainsSub "WHERE (extra_stuff = 'weeewooo'); DROP TABLE injection_test; --) = 'hi'"
      (pgIdentEscape "extra_stuff = 'weeewooo'); DROP TABLE injection_test; --") = false ∧
    PGVectorStore.buildJoinStatement ⟨"JOIN", "bad; DROP TABLE x; --", [⟨"a", "b", none⟩]⟩
      = .ok "JOIN bad; DROP TABLE x; -- ON a = b" :=
  ⟨by decide, by decide, by decide, by decide⟩

/-- Claim C2 (amended): scalar comparison values do flow through the
driver's positional-parameter escaping (quoted literals with embedded
quotes doubled), but filter keys and join table names are interpolated
raw — via pg-promise `$1:raw` and template concatenation — with no
identifier escaping, so such a string becomes part of the statement text
verbatim. -/
theorem claim_C2_raw_identifiers_amended (pc key s tbl : String)
    (conds : List OnCondition) (hkey : key ≠ pc) (hS : isString (.str s) = true) :
    buildClause .column pc key "$eq" (.str s)
      = .ok ("(" ++ key ++ ") = " ++ sqlStringLiteral s) ∧
    PGVectorStore.buildJoinStatement ⟨"JOIN", tbl, conds⟩
      = .ok ("JOIN " ++ tbl ++ " ON " ++ String.intercalate " AND "
          (conds.map (fun c => c.left ++ " " ++
            (match c.operator with
             | none => "="
             | some o => if o = "" then "=" else o) ++ " " ++ c.right))) := by
  constructor
  · simp only [buildClause, myValueOf, hS, if_true, if_neg hkey]
    rw [if_neg (by decide : ¬("$eq" = "$textSearch"))]
    refine congrArg Except.ok ?_
    apply String.ext
    simp [String.data_append, fmtLit, sqlStringLiteral, comparisonMapLookup, List.lookup]
  · simp only [PGVectorStore.buildJoinStatement]
    rw [if_pos (by decide)]
    refine congrArg Except.ok ?_
    apply String.ext
    simp [String.data_append]

/-- Witness for the amended claim C2: at the concrete key `k`, value
`abc`, table `t`, the emitted clause embeds the key raw and the value as
an escaped literal. -/
theorem claim_C2_amended_witness :
    buildClause .column "content" "k" "$eq" (.str "abc")
      = .ok ("(" ++ "k" ++ ") = " ++ sqlStringLiteral "abc") :=
  (claim_C2_raw_identifiers_amended "content" "k" "abc" "t" [⟨"a", "b", none⟩]
    (by decide) (by decide)).1

/-- Claim C10 counterexample: the empty string is a present `type` outside
plain/phrase/websearch, yet `buildTextSearchStatement` does not raise
`Invalid text search type` — being falsy, the empty string is treated as
an omitted type and the operator defaults to `to_tsquery`. -/
theorem claim_C10_counterexample :
    buildTextSearchStatement { query := "hello", type := some "", config := none } "content"
      = .ok "to_tsvector('simple', content) @@ to_tsquery('simple', 'hello')" ∧
    ("" ∈ (["plain", "phrase", "websearch"] : List String)) = False :=
  ⟨by decide, by decide⟩

/-- Claim C10 (amended): when `type` is omitted the query operator
defaults to `to_tsquery`; when `config` is omitted the text-search
language defaults to `simple`; and a present non-empty `type` outside
plain/phrase/websearch raises `Invalid text search type` (the empty
string, being falsy, is instead treated as omitted). -/
theorem claim_C10_textsearch_defaults_amended (q col c t : String)
    (h1 : t ≠ "") (h2 : ¬ t ∈ (["plain", "phrase", "websearch"] : List String)) :
    buildTextSearchStatement { query := q, type := none, config := none } col
      = .ok ("to_tsvector('simple', " ++ col ++ ") @@ to_tsquery('simple', "
          ++ sqlStringLiteral q ++ ")") ∧
    buildTextSearchStatement { query := q, type := none, config := some c } col
      = .ok ("to_tsvector(" ++ sqlStringLiteral c ++ ", " ++ col ++ ") @@ to_tsquery("
          ++ sqlStringLiteral c ++ ", " ++ sqlStringLiteral q ++ ")") ∧
    buildTextSearchStatement { query := q, type := some t, config := none } col
      = .error "Invalid text search type" := by
  have hne : t ≠ "plain" ∧ t ≠ "phrase" ∧ t ≠ "websearch" := by
    simp only [List.mem_cons, List.not_mem_nil, or_false, not_or] at h2
    exact h2
  refine ⟨?_, ?_, ?_⟩
  · simp only [buildTextSearchStatement, Option.getD]
    refine exceptPure_ok_congr ?_
    apply String.ext
    simp [String.data_append, sqlStringLiteral, escapeSingleQuotes]
  · simp only [buildTextSearchStatement, Option.getD]
    refine exceptPure_ok_congr ?_
    apply String.ext
    simp [String.data_append]
  · simp only [buildTextSearchStatement, Option.getD, if_neg h1, if_neg hne.1,
      if_neg hne.2.1, if_neg hne.2.2]
    rfl

/-- Witness for the amended claim C10: the concrete type `bogus` is
present, non-empty and outside the allowed set, and raises the error. -/
theorem claim_C10_witness :
    buildTextSearchStatement { query := "hello", type := some "bogus", config := none } "content"
      = .error "Invalid text search type" :=
  (claim_C10_textsearch_defaults_amended "hello" "content" "english" "bogus"
    (by decide) (by decide)).2.2
